import Mathlib

/-!
Shallow embedding of the cWallet core services:
`src/services/CardManager.ts` (card store with validation) and
`src/services/AICardSuggester.ts` (rule-based card suggestion),
over the data model of `src/types.ts`.

JavaScript numbers are modelled as rationals (`ℚ`), timestamps as epoch
milliseconds (`Int`), thrown exceptions as `Except String` results paired
with the (possibly unchanged) store, and the partial category-keyed objects
`cashback` / `perks` as `Option`-valued functions.  The JavaScript idiom
`x || 0` on an optional number is modelled by `orJs`, which is falsy-aware
(a present `0` still falls through to the default).
-/

namespace CWallet

/-- Transaction categories (`Category` enum of `src/types.ts`). -/
inductive Category where
  | dining
  | travel
  | shopping
  | groceries
  | entertainment
  | utilities
  | healthcare
  | transportation
  | other
deriving DecidableEq

/-- The string value of a `Category` enum member, as in `src/types.ts`. -/
def Category.value : Category → String
  | .dining => "dining"
  | .travel => "travel"
  | .shopping => "shopping"
  | .groceries => "groceries"
  | .entertainment => "entertainment"
  | .utilities => "utilities"
  | .healthcare => "healthcare"
  | .transportation => "transportation"
  | .other => "other"

/-- Card brands (`CardType` enum of `src/types.ts`). -/
inductive CardType where
  | visa
  | mastercard
  | amex
  | discover
  | other
deriving DecidableEq

/-- A payment card (`Card` interface of `src/types.ts`). -/
structure Card where
  id : String
  name : String
  number : String
  expiry : String
  cvv : String
  cardholderName : String
  type : CardType
  categories : List Category
  cashback : Category → Option ℚ
  perks : Category → Option (List String)
  color : Option String
  lastUsed : Option Int

/-- A transaction (`Transaction` interface of `src/types.ts`). -/
structure Transaction where
  category : Category
  amount : ℚ
  date : Option Int
  description : Option String

/-- A suggestion result (`CardSuggestion` interface of `src/types.ts`). -/
structure CardSuggestion where
  card : Card
  reason : String
  cashbackAmount : Option ℚ
  perks : Option (List String)

/-- JavaScript `x || d` on an optional number: a present but zero value is
falsy and still falls through to the default. -/
def orJs (x : Option ℚ) (d : ℚ) : ℚ :=
  match x with
  | none => d
  | some v => if v = 0 then d else v

/-- Whitespace characters removed by `number.replace(/\s/g, '')`. -/
def jsWs (ch : Char) : Bool :=
  ch = ' ' || ch = '\t' || ch = '\n' || ch = '\r'

/-- The regex `/^\d{13,19}$/` applied to the card number after removing
whitespace, as in `CardManager.validateCard`. -/
def matchesNumber (s : String) : Bool :=
  let t := s.toList.filter (fun ch => !jsWs ch)
  decide (13 ≤ t.length) && decide (t.length ≤ 19) && t.all Char.isDigit

/-- The regex `/^\d{2}\/\d{2}$/` (MM/YY) of `CardManager.validateCard`. -/
def matchesExpiry (s : String) : Bool :=
  match s.toList with
  | [a, b, sl, c, d] => a.isDigit && b.isDigit && decide (sl = '/') && c.isDigit && d.isDigit
  | _ => false

/-- The regex `/^\d{3,4}$/` of `CardManager.validateCard`. -/
def matchesCvv (s : String) : Bool :=
  let t := s.toList
  (decide (t.length = 3) || decide (t.length = 4)) && t.all Char.isDigit

/-- `CardManager.validateCard`: required-field presence (a missing field is
an empty string, JavaScript-falsy), then number, expiry and CVV format,
failing fast with the thrown error message. -/
def validateCard (card : Card) : Except String Unit :=
  if card.id = "" then .error "Card ID is required"
  else if card.name = "" then .error "Card name is required"
  else if card.number = "" then .error "Card number is required"
  else if card.expiry = "" then .error "Card expiry is required"
  else if card.cvv = "" then .error "Card CVV is required"
  else if card.cardholderName = "" then .error "Cardholder name is required"
  else if !matchesNumber card.number then .error "Invalid card number format"
  else if !matchesExpiry card.expiry then .error "Invalid expiry date format (should be MM/YY)"
  else if !matchesCvv card.cvv then .error "Invalid CVV format (should be 3-4 digits)"
  else .ok ()

/-- The in-memory store backing `CardManager` (`private cards: Card[]`). -/
structure Store where
  cards : List Card

/-- `CardManager.getCards`: a snapshot copy of the stored cards. -/
def getCards (s : Store) : List Card :=
  s.cards

/-- `CardManager.addCard`: validate, then push.  A thrown validation error
leaves the store as it was. -/
def addCard (card : Card) (s : Store) : Except String Card × Store :=
  match validateCard card with
  | .error e => (.error e, s)
  | .ok _ => (.ok card, ⟨s.cards ++ [card]⟩)

/-- `CardManager.updateCard`: validate, find the first index whose id
matches, then replace in place; throws when validation fails or the id is
absent, leaving the store as it was. -/
def updateCard (card : Card) (s : Store) : Except String Card × Store :=
  match validateCard card with
  | .error e => (.error e, s)
  | .ok _ =>
    match s.cards.findIdx? (fun c => c.id == card.id) with
    | none => (.error ("Card with ID " ++ card.id ++ " not found"), s)
    | some i => (.ok card, ⟨s.cards.set i card⟩)

/-- `CardManager.deleteCard`: throws when the id is absent; otherwise
removes every card with that id (`filter(c => c.id !== cardId)`). -/
def deleteCard (cardId : String) (s : Store) : Except String Bool × Store :=
  match s.cards.findIdx? (fun c => c.id == cardId) with
  | none => (.error ("Card with ID " ++ cardId ++ " not found"), s)
  | some _ => (.ok true, ⟨s.cards.filter (fun c => c.id != cardId)⟩)

/-- `CardManager.getCardById`: first card with the id, or null. -/
def getCardById (cardId : String) (s : Store) : Option Card :=
  s.cards.find? (fun c => c.id == cardId)

/-- `CardManager.updateCardLastUsed` ("mark used"): find the card, copy it
with `lastUsed` set to the current time `now`, and persist via
`updateCard`. -/
def updateCardLastUsed (cardId : String) (s : Store) (now : Int) : Except String Card × Store :=
  match s.cards.find? (fun c => c.id == cardId) with
  | none => (.error ("Card with ID " ++ cardId ++ " not found"), s)
  | some card => updateCard { card with lastUsed := some now } s

/-- Milliseconds per day, the divisor `1000 * 60 * 60 * 24` of
`AICardSuggester.calculateScore`. -/
def msPerDay : ℚ := 1000 * 60 * 60 * 24

/-- JavaScript `card.perks[cat]?.length > 0`: an absent entry compares as
`undefined > 0`, which is false. -/
def jsHasPerks (card : Card) (cat : Category) : Bool :=
  match card.perks cat with
  | none => false
  | some l => decide (0 < l.length)

/-- `AICardSuggester.calculateScore`: cashback term (direct rate ×10 when
truthy and positive, else the `other` rate ×5), +5 for perks in the
category, +3 for a preferred category, +1 when `lastUsed` is less than
7 days before `now` (epoch milliseconds). -/
def calculateScore (card : Card) (transaction : Transaction) (now : Int) : ℚ :=
  let cashbackRate := orJs (card.cashback transaction.category) 0
  let cashbackTerm :=
    if cashbackRate > 0 then cashbackRate * 10
    else (orJs (card.cashback Category.other) 0) * 5
  let perksTerm := if jsHasPerks card transaction.category then (5 : ℚ) else 0
  let categoryTerm := if transaction.category ∈ card.categories then (3 : ℚ) else 0
  let recencyTerm :=
    match card.lastUsed with
    | none => (0 : ℚ)
    | some t => if ((now - t : Int) : ℚ) / msPerDay < 7 then 1 else 0
  cashbackTerm + perksTerm + categoryTerm + recencyTerm

/-- Rendering of a rational in a template string (abstracts JavaScript
number formatting; used uniformly on both sides of the comparison). -/
def ratStr (q : ℚ) : String :=
  toString q

/-- `AICardSuggester.generateReason`: the rate is
`cashback[category] || cashback[other] || 0` (falsy-aware), then a four-way
branch over rate positivity and perk presence. -/
def generateReason (card : Card) (transaction : Transaction) : String :=
  let cashbackRate :=
    orJs (card.cashback transaction.category) (orJs (card.cashback Category.other) 0)
  let hasPerks := jsHasPerks card transaction.category
  if cashbackRate > 0 ∧ hasPerks = true then
    card.name ++ " offers " ++ ratStr cashbackRate ++ "% cashback on " ++
      transaction.category.value ++ " purchases and has additional perks."
  else if cashbackRate > 0 then
    card.name ++ " offers " ++ ratStr cashbackRate ++ "% cashback on " ++
      transaction.category.value ++ " purchases."
  else if hasPerks then
    card.name ++ " offers special perks for " ++ transaction.category.value ++ " purchases."
  else
    card.name ++ " is the best option for this purchase."

/-- Stable descending insertion for the scored-card sort: the new element
goes after every element whose score is greater than or equal to its own,
so ties keep their earlier position. -/
def insertDesc (x : Card × ℚ) : List (Card × ℚ) → List (Card × ℚ)
  | [] => [x]
  | y :: ys => if y.2 < x.2 then x :: y :: ys else y :: insertDesc x ys

/-- The stable sort by descending score behind
`scoredCards.sort((a, b) => b.score - a.score)` (ECMAScript `Array.sort`
is stable, so it is observationally this left-to-right insertion). -/
def sortDesc (l : List (Card × ℚ)) : List (Card × ℚ) :=
  l.foldl (fun acc x => insertDesc x acc) []

/-- `AICardSuggester.suggestCard`: null on an empty list; otherwise score
every card, stable-sort descending, take the first, and build the
suggestion.  The cashback amount uses only the direct-category rate
(`bestCard.cashback[transaction.category] || 0`). -/
def suggestCard (transaction : Transaction) (cards : List Card) (now : Int) :
    Option CardSuggestion :=
  match cards with
  | [] => none
  | c :: cs =>
    let scoredCards := (c :: cs).map (fun card => (card, calculateScore card transaction now))
    (sortDesc scoredCards).head?.map (fun best =>
      let bestCard := best.1
      let reason := generateReason bestCard transaction
      let cashbackRate := orJs (bestCard.cashback transaction.category) 0
      let cashbackAmount :=
        if cashbackRate > 0 then some (transaction.amount * cashbackRate / 100) else none
      { card := bestCard
        reason := reason
        cashbackAmount := cashbackAmount
        perks := bestCard.perks transaction.category })

/-! Spec-side definitions, transcribed from the wording of the
specification for the refinement comparisons. -/

/-- Spec scoring step 1's effective cashback rate:
`cashback[transaction.category]` if present and positive, otherwise
`cashback[other]` if present, else 0. -/
def specEffectiveRate (card : Card) (cat : Category) : ℚ :=
  match card.cashback cat with
  | some v => if 0 < v then v else (card.cashback Category.other).getD 0
  | none => (card.cashback Category.other).getD 0

/-- Spec wording "`perks[transaction.category]` exists and is non-empty". -/
def specHasPerks (card : Card) (cat : Category) : Bool :=
  match card.perks cat with
  | some l => !l.isEmpty
  | none => false

/-- The score of the spec's scoring algorithm: direct rate ×10 when present
and positive, otherwise the `other` rate (or 0 if absent) ×5; +5 for
non-empty perks in the category; +3 when the category is among the card's
categories; +1 when `lastUsed` is set and less than 7 days before now. -/
def specScore (card : Card) (transaction : Transaction) (now : Int) : ℚ :=
  (match card.cashback transaction.category with
    | some v => if 0 < v then v * 10 else (card.cashback Category.other).getD 0 * 5
    | none => (card.cashback Category.other).getD 0 * 5) +
  (if specHasPerks card transaction.category then 5 else 0) +
  (if transaction.category ∈ card.categories then 3 else 0) +
  (match card.lastUsed with
    | some t => if ((now - t : Int) : ℚ) < 7 * msPerDay then 1 else 0
    | none => 0)

/-- The spec's four-row reason decision table, with the rate falling back
from the direct category to `other` exactly as in scoring step 1. -/
def specReason (card : Card) (transaction : Transaction) : String :=
  let rate := specEffectiveRate card transaction.category
  let hasPerks := specHasPerks card transaction.category
  if 0 < rate then
    if hasPerks then
      card.name ++ " offers " ++ ratStr rate ++ "% cashback on " ++
        transaction.category.value ++ " purchases and has additional perks."
    else
      card.name ++ " offers " ++ ratStr rate ++ "% cashback on " ++
        transaction.category.value ++ " purchases."
  else
    if hasPerks then
      card.name ++ " offers special perks for " ++ transaction.category.value ++ " purchases."
    else
      card.name ++ " is the best option for this purchase."

/-- The spec's selection rule: the first card of the input attaining the
maximal score (descending stable sort, ties keep input order, take the
first); none on an empty list. -/
def specBestCard (transaction : Transaction) (now : Int) : List Card → Option Card
  | [] => none
  | c :: cs =>
    some (cs.foldl
      (fun b x =>
        if calculateScore b transaction now < calculateScore x transaction now then x else b)
      c)

/-- The states reachable from the empty store by successful operations. -/
inductive Reachable : Store → Prop
  | empty : Reachable ⟨[]⟩
  | add (s : Store) (card r : Card) (s' : Store) :
      Reachable s → addCard card s = (.ok r, s') → Reachable s'
  | update (s : Store) (card r : Card) (s' : Store) :
      Reachable s → updateCard card s = (.ok r, s') → Reachable s'
  | del (s : Store) (cardId : String) (r : Bool) (s' : Store) :
      Reachable s → deleteCard cardId s = (.ok r, s') → Reachable s'
  | markUsed (s : Store) (cardId : String) (now : Int) (r : Card) (s' : Store) :
      Reachable s → updateCardLastUsed cardId s now = (.ok r, s') → Reachable s'

/-- Every card of the store passes validation. -/
def StoreValid (s : Store) : Prop :=
  ∀ c ∈ s.cards, validateCard c = .ok ()

/-! Concrete fixtures used by counterexamples and witnesses. -/

/-- A valid card with a 2% cashback rate on the `other` category only. -/
def cardB : Card where
  id := "b1"
  name := "B"
  number := "1234567890123"
  expiry := "12/30"
  cvv := "123"
  cardholderName := "Bob B"
  type := CardType.other
  categories := []
  cashback := fun cat => if cat = Category.other then some 2 else none
  perks := fun _ => none
  color := none
  lastUsed := none

/-- A valid card with no cashback, no perks, no `lastUsed`. -/
def cardA : Card where
  id := "a1"
  name := "A"
  number := "4111111111111111"
  expiry := "01/29"
  cvv := "737"
  cardholderName := "Ann A"
  type := CardType.visa
  categories := [Category.dining]
  cashback := fun _ => none
  perks := fun _ => none
  color := none
  lastUsed := none

/-- An invalid card: its `name` is empty. -/
def cardBad : Card where
  id := "x1"
  name := ""
  number := "1234567890123"
  expiry := "12/30"
  cvv := "123"
  cardholderName := "Xavier X"
  type := CardType.other
  categories := []
  cashback := fun _ => none
  perks := fun _ => none
  color := none
  lastUsed := none

/-- A dining transaction of amount 100. -/
def txDining : Transaction where
  category := Category.dining
  amount := 100
  date := none
  description := none

/-! Helper lemmas. -/

/-- With default 0, the falsy-aware `x || 0` agrees with `Option.getD`. -/
theorem orJs_zero (x : Option ℚ) : orJs x 0 = x.getD 0 := by
  cases x with
  | none => rfl
  | some v =>
    by_cases h : v = 0 <;> simp [orJs, h]

/-- The code's perk test agrees with the spec's wording. -/
theorem jsHasPerks_eq_spec (card : Card) (cat : Category) :
    jsHasPerks card cat = specHasPerks card cat := by
  unfold jsHasPerks specHasPerks
  cases card.perks cat with
  | none => rfl
  | some l => cases l <;> simp

theorem msPerDay_pos : (0 : ℚ) < msPerDay := by
  norm_num [msPerDay]

/-- C4: the implemented score coincides with the spec's additive scoring
algorithm for every card, transaction and current time. -/
theorem calculateScore_eq_specScore (card : Card) (transaction : Transaction) (now : Int) :
    calculateScore card transaction now = specScore card transaction now := by
  unfold calculateScore specScore
  rw [jsHasPerks_eq_spec, orJs_zero, orJs_zero]
  have hrec : (match card.lastUsed with
      | none => (0 : ℚ)
      | some t => if ((now - t : Int) : ℚ) / msPerDay < 7 then 1 else 0) =
      (match card.lastUsed with
      | some t => if ((now - t : Int) : ℚ) < 7 * msPerDay then 1 else 0
      | none => 0) := by
    cases card.lastUsed with
    | none => rfl
    | some t =>
      simp only [div_lt_iff₀ msPerDay_pos]
  rw [hrec]
  cases hd : card.cashback transaction.category with
  | none => simp
  | some v =>
    by_cases hv : 0 < v <;> simp [hv]

/-- Unfolding equation of `suggestCard` on a non-empty list. -/
theorem suggestCard_cons (transaction : Transaction) (c : Card) (cs : List Card) (now : Int) :
    suggestCard transaction (c :: cs) now =
    (sortDesc ((c :: cs).map (fun card => (card, calculateScore card transaction now)))).head?.map
      (fun best =>
        { card := best.1
          reason := generateReason best.1 transaction
          cashbackAmount :=
            if orJs (best.1.cashback transaction.category) 0 > 0 then
              some (transaction.amount * orJs (best.1.cashback transaction.category) 0 / 100)
            else none
          perks := best.1.perks transaction.category }) := rfl

/-- C2 counterexample: for cardB (cashback only under `other`, rate 2) and
a dining transaction of amount 100, the code omits `cashbackAmount`
although the effective (fallback) rate is 2 > 0, whose claimed amount
would be 100 × 2 / 100 = 2. -/
theorem suggest_cashback_counterexample :
    (suggestCard txDining [cardB] 0).map (fun s => s.cashbackAmount) = some none ∧
    specEffectiveRate cardB txDining.category = 2 ∧
    txDining.amount * specEffectiveRate cardB txDining.category / 100 = 2 := by
  refine ⟨rfl, rfl, ?_⟩
  rw [show specEffectiveRate cardB txDining.category = (2 : ℚ) from rfl,
    show txDining.amount = (100 : ℚ) from rfl]
  norm_num

/-- C2 amended: the suggestion's `cashbackAmount` is computed from the
direct-category rate only (`cashback[category] || 0`, no fallback to
`other`): it equals amount × rate / 100 when that rate is present and
positive and is omitted otherwise. -/
theorem suggest_cashback_direct_only (transaction : Transaction) (cards : List Card)
    (now : Int) :
    (suggestCard transaction cards now).map (fun s => s.cashbackAmount) =
    (suggestCard transaction cards now).map (fun s =>
      if 0 < (s.card.cashback transaction.category).getD 0 then
        some (transaction.amount * (s.card.cashback transaction.category).getD 0 / 100)
      else none) := by
  cases cards with
  | nil => rfl
  | cons c cs =>
    rw [suggestCard_cons]
    cases (sortDesc ((c :: cs).map
        (fun card => (card, calculateScore card transaction now)))).head? with
    | none => rfl
    | some best =>
      simp only [Option.map_some']
      rw [orJs_zero]

/-- C5: assuming the data model's nonnegative cashback rate for the
transaction's category, the implemented reason string follows the spec's
four-row decision table with the scoring-step-1 fallback rate. -/
theorem generateReason_eq_specReason (card : Card) (transaction : Transaction)
    (h1 : ∀ q, card.cashback transaction.category = some q → 0 ≤ q) :
    generateReason card transaction = specReason card transaction := by
  unfold generateReason specReason
  rw [jsHasPerks_eq_spec]
  have hrate : orJs (card.cashback transaction.category)
      (orJs (card.cashback Category.other) 0) =
      specEffectiveRate card transaction.category := by
    unfold specEffectiveRate
    cases hd : card.cashback transaction.category with
    | none =>
      cases ho : card.cashback Category.other with
      | none => rfl
      | some w => by_cases hw : w = 0 <;> simp [orJs, hw]
    | some v =>
      by_cases hv : v = 0
      · subst hv
        cases ho : card.cashback Category.other with
        | none => simp [orJs]
        | some w => by_cases hw : w = 0 <;> simp [orJs, hw]
      · have hp : 0 < v := lt_of_le_of_ne (h1 v hd) (Ne.symm hv)
        simp [orJs, hv, hp]
  rw [hrate]
  by_cases hr : 0 < specEffectiveRate card transaction.category <;>
    by_cases hp : specHasPerks card transaction.category = true <;>
      simp [hr, hp]

/-- C5 witness: the decision table holds at cardA and the dining
transaction. -/
theorem generateReason_eq_specReason_witness :
    generateReason cardA txDining = specReason cardA txDining :=
  generateReason_eq_specReason cardA txDining
    (by intro q h; simp [cardA, txDining] at h)

/-- C1 counterexample: adding cardA twice succeeds, so the store
⟨[cardA, cardA]⟩ is reachable by successful operations, yet its ids are
not pairwise distinct. -/
theorem dup_id_reachable_counterexample :
    Reachable ⟨[cardA, cardA]⟩ ∧
    (addCard cardA ⟨[cardA]⟩).1 = .ok cardA ∧
    ¬ List.Pairwise (fun a b : Card => a.id ≠ b.id) [cardA, cardA] := by
  refine ⟨?_, rfl, ?_⟩
  · exact Reachable.add ⟨[cardA]⟩ cardA cardA ⟨[cardA, cardA]⟩
      (Reachable.add ⟨[]⟩ cardA cardA ⟨[cardA]⟩ Reachable.empty rfl) rfl
  · intro h
    cases h with
    | cons h1 _ => exact h1 cardA (List.mem_singleton.mpr rfl) rfl

/-- C1 amended: validation checks only field presence and formats and
never consults the store, so `add` with any valid card succeeds and
appends it — also when its id equals a stored card's id; stored ids are
therefore not guaranteed pairwise distinct. -/
theorem addCard_no_uniqueness_check (s : Store) (card : Card)
    (h : validateCard card = .ok ()) :
    addCard card s = (.ok card, ⟨s.cards ++ [card]⟩) := by
  unfold addCard
  rw [h]

/-- C1 amended witness: adding cardA on top of an equal-id store
succeeds and appends the duplicate. -/
theorem addCard_no_uniqueness_check_witness :
    addCard cardA ⟨[cardA]⟩ = (.ok cardA, ⟨[cardA] ++ [cardA]⟩) :=
  addCard_no_uniqueness_check ⟨[cardA]⟩ cardA rfl

/-- C3 counterexample: `update` called with cardA carrying
`lastUsed = some 5` succeeds and changes the stored card's `lastUsed`
from none to some 5 — a mutation of `lastUsed` outside `markUsed`. -/
theorem update_changes_lastUsed_counterexample :
    (updateCard { cardA with lastUsed := some 5 } ⟨[cardA]⟩).1 =
      .ok { cardA with lastUsed := some 5 } ∧
    (updateCard { cardA with lastUsed := some 5 } ⟨[cardA]⟩).2.cards.map
      (fun c => c.lastUsed) = [some 5] ∧
    cardA.lastUsed = none :=
  ⟨rfl, rfl, rfl⟩

/-- C3 amended: after any single operation, every stored card is either a
previously stored card (its `lastUsed` untouched), the full record passed
to `update` (whose `lastUsed` the caller controls), or — for `markUsed` —
a previously stored card with only `lastUsed` replaced by the current
time; so `markUsed` and `update` are the only operations that alter a
stored card's `lastUsed`. -/
theorem lastUsed_mutation_paths (s : Store) (card : Card) (cardId : String)
    (now : Int) (x : Card) :
    (x ∈ (addCard card s).2.cards → x ∈ s.cards ∨ x = card) ∧
    (x ∈ (updateCard card s).2.cards → x ∈ s.cards ∨ x = card) ∧
    (x ∈ (deleteCard cardId s).2.cards → x ∈ s.cards) ∧
    (x ∈ (updateCardLastUsed cardId s now).2.cards →
      x ∈ s.cards ∨ ∃ c0 ∈ s.cards, x = { c0 with lastUsed := some now }) := by
  refine ⟨?_, ?_, ?_, ?_⟩
  · intro hx
    cases hv : validateCard card with
    | error e => simp only [addCard, hv] at hx; exact Or.inl hx
    | ok u =>
      simp only [addCard, hv] at hx
      rcases List.mem_append.mp hx with h1 | h1
      · exact Or.inl h1
      · exact Or.inr (List.mem_singleton.mp h1)
  · intro hx
    cases hv : validateCard card with
    | error e => simp only [updateCard, hv] at hx; exact Or.inl hx
    | ok u =>
      cases hf : s.cards.findIdx? (fun c => c.id == card.id) with
      | none => simp only [updateCard, hv, hf] at hx; exact Or.inl hx
      | some i =>
        simp only [updateCard, hv, hf] at hx
        exact List.mem_or_eq_of_mem_set hx
  · intro hx
    cases hf : s.cards.findIdx? (fun c => c.id == cardId) with
    | none => simp only [deleteCard, hf] at hx; exact hx
    | some i =>
      simp only [deleteCard, hf] at hx
      exact List.mem_of_mem_filter hx
  · intro hx
    cases hff : s.cards.find? (fun c => c.id == cardId) with
    | none => simp only [updateCardLastUsed, hff] at hx; exact Or.inl hx
    | some c0 =>
      simp only [updateCardLastUsed, hff] at hx
      cases hv : validateCard { c0 with lastUsed := some now } with
      | error e => simp only [updateCard, hv] at hx; exact Or.inl hx
      | ok u =>
        cases hf : s.cards.findIdx?
            (fun c => c.id == ({ c0 with lastUsed := some now } : Card).id) with
        | none => simp only [updateCard, hv, hf] at hx; exact Or.inl hx
        | some i =>
          simp only [updateCard, hv, hf] at hx
          rcases List.mem_or_eq_of_mem_set hx with h1 | h1
          · exact Or.inl h1
          · exact Or.inr ⟨c0, List.mem_of_find?_eq_some hff, h1⟩

/-- C3 amended witness: instantiated at the add conjunct for cardA over
the empty store. -/
theorem lastUsed_mutation_paths_witness :
    cardA ∈ (⟨[]⟩ : Store).cards ∨ cardA = cardA :=
  (lastUsed_mutation_paths ⟨[]⟩ cardA "z" 0 cardA).1
    (show cardA ∈ [cardA] from List.mem_singleton.mpr rfl)

/-- C6: a write that throws — an `add` or `update` failing validation, or
an `update`, `delete` or `markUsed` whose id is absent — leaves the store
exactly as it was. -/
theorem failed_write_preserves_store (s : Store) (card : Card) (cardId : String)
    (now : Int) (e : String) :
    ((addCard card s).1 = .error e → (addCard card s).2 = s) ∧
    ((updateCard card s).1 = .error e → (updateCard card s).2 = s) ∧
    ((deleteCard cardId s).1 = .error e → (deleteCard cardId s).2 = s) ∧
    ((updateCardLastUsed cardId s now).1 = .error e →
      (updateCardLastUsed cardId s now).2 = s) := by
  refine ⟨?_, ?_, ?_, ?_⟩
  · intro hx
    cases hv : validateCard card with
    | error e => simp [addCard, hv]
    | ok u => simp [addCard, hv] at hx
  · intro hx
    cases hv : validateCard card with
    | error e => simp [updateCard, hv]
    | ok u =>
      cases hf : s.cards.findIdx? (fun c => c.id == card.id) with
      | none => simp [updateCard, hv, hf]
      | some i => simp [updateCard, hv, hf] at hx
  · intro hx
    cases hf : s.cards.findIdx? (fun c => c.id == cardId) with
    | none => simp [deleteCard, hf]
    | some i => simp [deleteCard, hf] at hx
  · intro hx
    cases hff : s.cards.find? (fun c => c.id == cardId) with
    | none => simp [updateCardLastUsed, hff]
    | some c0 =>
      simp only [updateCardLastUsed, hff] at hx ⊢
      cases hv : validateCard { c0 with lastUsed := some now } with
      | error e => simp [updateCard, hv]
      | ok u =>
        cases hf : s.cards.findIdx?
            (fun c => c.id == ({ c0 with lastUsed := some now } : Card).id) with
        | none => simp [updateCard, hv, hf]
        | some i => simp [updateCard, hv, hf] at hx

/-- C6 witness: the rejected add of the empty-name card leaves the empty
store unchanged. -/
theorem failed_write_preserves_store_witness :
    (addCard cardBad ⟨[]⟩).2 = ⟨[]⟩ :=
  (failed_write_preserves_store ⟨[]⟩ cardBad "z" 0 "Card name is required").1 rfl

/-- Validation never inspects `lastUsed`. -/
theorem validate_ignores_lastUsed (c : Card) (x : Option Int) :
    validateCard { c with lastUsed := x } = validateCard c := rfl

/-- Inversion of a successful `add`. -/
theorem addCard_ok_inv {card r : Card} {s s' : Store}
    (h : addCard card s = (.ok r, s')) :
    validateCard card = .ok () ∧ r = card ∧ s' = ⟨s.cards ++ [card]⟩ := by
  cases hv : validateCard card with
  | error e => simp [addCard, hv] at h
  | ok u =>
    cases u
    simp only [addCard, hv, Prod.mk.injEq, Except.ok.injEq] at h
    exact ⟨rfl, h.1.symm, h.2.symm⟩

/-- Inversion of a successful `update`. -/
theorem updateCard_ok_inv {card r : Card} {s s' : Store}
    (h : updateCard card s = (.ok r, s')) :
    validateCard card = .ok () ∧ r = card ∧
    ∃ i, s.cards.findIdx? (fun c => c.id == card.id) = some i ∧
      s' = ⟨s.cards.set i card⟩ := by
  cases hv : validateCard card with
  | error e => simp [updateCard, hv] at h
  | ok u =>
    cases u
    cases hf : s.cards.findIdx? (fun c => c.id == card.id) with
    | none => simp [updateCard, hv, hf] at h
    | some i =>
      simp only [updateCard, hv, hf, Prod.mk.injEq, Except.ok.injEq] at h
      exact ⟨rfl, h.1.symm, i, rfl, h.2.symm⟩

/-- Inversion of a successful `delete`. -/
theorem deleteCard_ok_inv {cardId : String} {r : Bool} {s s' : Store}
    (h : deleteCard cardId s = (.ok r, s')) :
    s' = ⟨s.cards.filter (fun c => c.id != cardId)⟩ := by
  cases hf : s.cards.findIdx? (fun c => c.id == cardId) with
  | none => simp [deleteCard, hf] at h
  | some i =>
    simp only [deleteCard, hf, Prod.mk.injEq] at h
    exact h.2.symm

/-- Inversion of a successful `markUsed`. -/
theorem markUsed_ok_inv {cardId : String} {now : Int} {r : Card} {s s' : Store}
    (h : updateCardLastUsed cardId s now = (.ok r, s')) :
    ∃ c0, s.cards.find? (fun c => c.id == cardId) = some c0 ∧
      updateCard { c0 with lastUsed := some now } s = (.ok r, s') := by
  cases hff : s.cards.find? (fun c => c.id == cardId) with
  | none => simp [updateCardLastUsed, hff] at h
  | some c0 =>
    simp only [updateCardLastUsed, hff] at h
    exact ⟨c0, rfl, h⟩

/-- The validation invariant holds on every reachable store. -/
theorem reachable_storeValid {s : Store} (h : Reachable s) : StoreValid s := by
  induction h with
  | empty => intro c hc; exact absurd hc (List.not_mem_nil c)
  | add s card r s' _ heq ih =>
    obtain ⟨hv, _, hs'⟩ := addCard_ok_inv heq
    subst hs'
    intro c hc
    rcases List.mem_append.mp hc with h1 | h1
    · exact ih c h1
    · rw [List.mem_singleton.mp h1]; exact hv
  | update s card r s' _ heq ih =>
    obtain ⟨hv, _, i, _, hs'⟩ := updateCard_ok_inv heq
    subst hs'
    intro c hc
    rcases List.mem_or_eq_of_mem_set hc with h1 | h1
    · exact ih c h1
    · rw [h1]; exact hv
  | del s cardId r s' _ heq ih =>
    have hs' := deleteCard_ok_inv heq
    subst hs'
    intro c hc
    exact ih c (List.mem_of_mem_filter hc)
  | markUsed s cardId now r s' _ heq ih =>
    obtain ⟨c0, _, hu⟩ := markUsed_ok_inv heq
    obtain ⟨hv, _, i, _, hs'⟩ := updateCard_ok_inv hu
    subst hs'
    intro c hc
    rcases List.mem_or_eq_of_mem_set hc with h1 | h1
    · exact ih c h1
    · rw [h1]; exact hv

/-- A successful `find?` yields a successful `findIdx?` for the same
predicate, from any start index. -/
theorem find?_imp_findIdx? (p : Card → Bool) (c : Card) :
    ∀ (l : List Card) (k : Nat), l.find? p = some c →
      ∃ i, l.findIdx? p k = some i := by
  intro l
  induction l with
  | nil => intro k h; simp [List.find?] at h
  | cons x xs ih =>
    intro k h
    by_cases hp : p x
    · refine ⟨k, ?_⟩
      rw [List.findIdx?_cons, if_pos hp]
    · rw [List.find?_cons] at h
      rw [show p x = false by simpa using hp] at h
      obtain ⟨i, hi⟩ := ih (k + 1) h
      refine ⟨i, ?_⟩
      rw [List.findIdx?_cons, if_neg hp]
      exact hi

/-- C7: on a reachable store, `markUsed` with the id of any stored card
succeeds — the validation re-run by the internal `update` passes because
stored cards are valid and validation ignores `lastUsed`. -/
theorem markUsed_succeeds_on_reachable (s : Store) (c : Card) (now : Int)
    (hr : Reachable s) (hc : c ∈ s.cards) :
    ∃ r s', updateCardLastUsed c.id s now = (.ok r, s') := by
  have hfind : ∃ c0, s.cards.find? (fun x => x.id == c.id) = some c0 := by
    have hsome : (s.cards.find? (fun x => x.id == c.id)).isSome = true :=
      List.find?_isSome.mpr ⟨c, hc, by simp⟩
    exact Option.isSome_iff_exists.mp hsome
  obtain ⟨c0, hf⟩ := hfind
  have hvc0 : validateCard c0 = .ok () :=
    reachable_storeValid hr c0 (List.mem_of_find?_eq_some hf)
  have hvc0' : validateCard { c0 with lastUsed := some now } = .ok () := by
    rw [validate_ignores_lastUsed]; exact hvc0
  have hid : ({ c0 with lastUsed := some now } : Card).id = c.id := by
    simpa using List.find?_some hf
  have hfi : ∃ i, s.cards.findIdx?
      (fun x => x.id == ({ c0 with lastUsed := some now } : Card).id) 0 = some i := by
    rw [hid]
    exact find?_imp_findIdx? _ c0 s.cards 0 hf
  obtain ⟨i, hi⟩ := hfi
  refine ⟨{ c0 with lastUsed := some now },
    ⟨s.cards.set i { c0 with lastUsed := some now }⟩, ?_⟩
  simp [updateCardLastUsed, hf, updateCard, hvc0', hi]

/-- C7 witness: `markUsed` succeeds for cardA on the reachable singleton
store. -/
theorem markUsed_succeeds_on_reachable_witness :
    ∃ r s', updateCardLastUsed cardA.id ⟨[cardA]⟩ 0 = (.ok r, s') :=
  markUsed_succeeds_on_reachable ⟨[cardA]⟩ cardA 0
    (Reachable.add ⟨[]⟩ cardA cardA ⟨[cardA]⟩ Reachable.empty rfl)
    (List.mem_singleton.mpr rfl)

/-- `find?` on an appended fresh card skips every non-matching prefix
element and returns the card. -/
theorem find?_append_fresh (card : Card) :
    ∀ l : List Card, (∀ c ∈ l, c.id ≠ card.id) →
      (l ++ [card]).find? (fun c => c.id == card.id) = some card := by
  intro l
  induction l with
  | nil =>
    intro _
    simp [List.find?]
  | cons x xs ih =>
    intro hfr
    have hx : (x.id == card.id) = false := by
      simpa using hfr x (List.mem_cons_self x xs)
    rw [List.cons_append, List.find?_cons, hx]
    exact ih (fun c hc => hfr c (List.mem_cons_of_mem x hc))

/-- C8: adding a valid card whose id is fresh succeeds, and `getById` with
that id then returns exactly the supplied card. -/
theorem add_getById_roundtrip (s : Store) (card : Card)
    (hv : validateCard card = .ok ())
    (hfresh : ∀ c ∈ s.cards, c.id ≠ card.id) :
    (addCard card s).1 = .ok card ∧
    getCardById card.id (addCard card s).2 = some card := by
  have hadd : addCard card s = (.ok card, ⟨s.cards ++ [card]⟩) := by
    unfold addCard
    rw [hv]
  rw [hadd]
  exact ⟨rfl, find?_append_fresh card s.cards hfresh⟩

/-- C8 witness: round-trip of cardA through the empty store. -/
theorem add_getById_roundtrip_witness :
    (addCard cardA ⟨[]⟩).1 = .ok cardA ∧
    getCardById cardA.id (addCard cardA ⟨[]⟩).2 = some cardA :=
  add_getById_roundtrip ⟨[]⟩ cardA rfl
    (fun c hc => absurd hc (List.not_mem_nil c))

/-- C10: `markUsed` on a present id (whose stored card validates, as on
every reachable store) rewrites exactly the first matching position with
that same card, only its `lastUsed` replaced by the current time; `set`
leaves every other position untouched. -/
theorem markUsed_frame (s : Store) (cardId : String) (c0 : Card) (now : Int)
    (hf : s.cards.find? (fun x => x.id == cardId) = some c0)
    (hv : validateCard c0 = .ok ()) :
    ∃ i, s.cards.findIdx? (fun x => x.id == cardId) = some i ∧
      updateCardLastUsed cardId s now =
        (.ok { c0 with lastUsed := some now },
         ⟨s.cards.set i { c0 with lastUsed := some now }⟩) := by
  have hid : ({ c0 with lastUsed := some now } : Card).id = cardId := by
    simpa using List.find?_some hf
  have hv' : validateCard { c0 with lastUsed := some now } = .ok () := by
    rw [validate_ignores_lastUsed]; exact hv
  obtain ⟨i, hi⟩ := find?_imp_findIdx? (fun x => x.id == cardId) c0 s.cards 0 hf
  refine ⟨i, hi, ?_⟩
  have hi' : s.cards.findIdx?
      (fun x => x.id == ({ c0 with lastUsed := some now } : Card).id) 0 = some i := by
    rw [hid]; exact hi
  simp [updateCardLastUsed, hf, updateCard, hv', hi']

/-- C10 witness: marking cardA used in the singleton store rewrites
position 0 with cardA stamped at time 9. -/
theorem markUsed_frame_witness :
    ∃ i, (⟨[cardA]⟩ : Store).cards.findIdx? (fun x => x.id == "a1") = some i ∧
      updateCardLastUsed "a1" ⟨[cardA]⟩ 9 =
        (.ok { cardA with lastUsed := some 9 },
         ⟨(⟨[cardA]⟩ : Store).cards.set i { cardA with lastUsed := some 9 }⟩) :=
  markUsed_frame ⟨[cardA]⟩ "a1" cardA 9 rfl rfl

/-- Head of a stable descending insertion: the new element takes the head
only when its score strictly exceeds the old head's. -/
theorem insertDesc_head? (x : Card × ℚ) (l : List (Card × ℚ)) :
    (insertDesc x l).head? = some (match l.head? with
      | none => x
      | some y => if y.2 < x.2 then x else y) := by
  cases l with
  | nil => rfl
  | cons y ys =>
    by_cases h : y.2 < x.2 <;> simp [insertDesc, h]

/-- Head of the insertion fold: folding stable insertions keeps, as head,
the strict-maximum-so-far (earliest on ties). -/
theorem foldl_insertDesc_head? :
    ∀ (l acc : List (Card × ℚ)) (a : Card × ℚ), acc.head? = some a →
      (l.foldl (fun acc x => insertDesc x acc) acc).head? =
        some (l.foldl (fun b x => if b.2 < x.2 then x else b) a) := by
  intro l
  induction l with
  | nil =>
    intro acc a h
    simpa using h
  | cons x xs ih =>
    intro acc a h
    simp only [List.foldl_cons]
    apply ih
    rw [insertDesc_head?, h]

/-- Folding the strict-max pick over scored pairs tracks the pick over the
underlying cards. -/
theorem foldl_pick_map (transaction : Transaction) (now : Int) :
    ∀ (cs : List Card) (c : Card),
      (cs.map (fun x => (x, calculateScore x transaction now))).foldl
        (fun b x => if b.2 < x.2 then x else b) (c, calculateScore c transaction now) =
      (cs.foldl (fun b x =>
          if calculateScore b transaction now < calculateScore x transaction now then x else b) c,
       calculateScore (cs.foldl (fun b x =>
          if calculateScore b transaction now < calculateScore x transaction now then x else b) c)
         transaction now) := by
  intro cs
  induction cs with
  | nil => intro c; rfl
  | cons x xs ih =>
    intro c
    simp only [List.map_cons, List.foldl_cons]
    by_cases h : calculateScore c transaction now < calculateScore x transaction now
    · rw [if_pos h, if_pos h]
      exact ih x
    · rw [if_neg h, if_neg h]
      exact ih c

/-- C9: `suggest` returns exactly the first input card attaining the
maximal score — the stable descending sort preserves input order on ties,
so among equally scored cards the earlier one is chosen. -/
theorem suggest_selects_first_max (transaction : Transaction) (cards : List Card)
    (now : Int) :
    (suggestCard transaction cards now).map (fun s => s.card) =
    specBestCard transaction now cards := by
  cases cards with
  | nil => rfl
  | cons c cs =>
    rw [suggestCard_cons]
    have h1 : (sortDesc ((c :: cs).map
        (fun card => (card, calculateScore card transaction now)))).head? =
        some ((cs.map (fun card => (card, calculateScore card transaction now))).foldl
          (fun b x => if b.2 < x.2 then x else b)
          (c, calculateScore c transaction now)) := by
      unfold sortDesc
      rw [List.map_cons, List.foldl_cons]
      exact foldl_insertDesc_head?
        (cs.map (fun card => (card, calculateScore card transaction now)))
        (insertDesc (c, calculateScore c transaction now) [])
        (c, calculateScore c transaction now) rfl
    rw [h1, foldl_pick_map]
    rfl

end CWallet
